import Mathlib

/-!
Verification development for the TeeLux storefront (`lo.py`): a shallow
embedding of the helper functions and of the order pricing and lifecycle
engine, together with theorems settling the specification claims.

Conventions of the embedding:
* monetary amounts are rationals (`ℚ`);
* timestamps are integers (`Int`, e.g. seconds);
* the Mongo collections are explicit Lean values threaded through the
  operations (lists for documents, a `Nat` for the order-id counter,
  `Option` for the singleton settings document);
* fallible operations return `Except`/`Option` together with the updated
  store state.
-/

/-- Python `str.lower()` restricted to the character-wise case map
(sufficient for the ASCII data handled here). -/
def lowerStr (s : String) : String :=
  ⟨s.data.map Char.toLower⟩

/-- Python `str.upper()` as the character-wise case map. -/
def upperStr (s : String) : String :=
  ⟨s.data.map Char.toUpper⟩

/-- Worker for `slugify`: `started` records whether an alphanumeric
character has been emitted already, `pend` whether a separator is owed
before the next alphanumeric character.  Runs of non-alphanumeric
characters collapse to a single `'-'`, and no separator is emitted at
either end. -/
def slugAux : List Char → Bool → Bool → List Char
  | [], _, _ => []
  | c :: rest, started, pend =>
    if c.isAlphanum then
      if started && pend then '-' :: c.toLower :: slugAux rest true false
      else c.toLower :: slugAux rest true false
    else slugAux rest started true

/-- Embedding of `slugify` (python-slugify) on ASCII input: lowercase the
alphanumeric characters, collapse every other run of characters to a
single `'-'`, strip separators from both ends. -/
def slugify (s : String) : String :=
  ⟨slugAux s.data false false⟩

/-- Embedding of `lo.py generate_sku`:
`f"{slugify(product_name)}-{slugify(color)}-{size}".upper()`. -/
def generate_sku (product_name color size : String) : String :=
  upperStr (slugify product_name ++ "-" ++ slugify color ++ "-" ++ size)

/-- Embedding of `lo.py get_next_order_id`: the counters collection holds the document
`{'_id': 'order_id', 'seq': n}` (with `n = 0` standing for an absent
document, which the upsert creates).  `find_one_and_update` with
`{'$inc': {'seq': 1}}` and `ReturnDocument.AFTER` atomically increments
`seq` and returns the post-increment value.  The embedding maps the
current counter value to `(returned id, new counter value)`. -/
def get_next_order_id (seq : Nat) : Nat × Nat :=
  (seq + 1, seq + 1)

/-- The ids handed out by `n` successive calls of `get_next_order_id`
starting from counter value `seq`. -/
def orderIds (seq : Nat) : Nat → List Nat
  | 0 => []
  | n + 1 =>
    let r := get_next_order_id seq
    r.1 :: orderIds r.2 n

/-- A shipping method document (`{'name': …, 'fee': …, 'desc': …}`). -/
structure ShippingMethod where
  name : String
  fee : ℚ
  desc : String
deriving DecidableEq, Repr

/-- The settings document of `lo.py get_settings` (all fields of the
default document inserted on first access). -/
structure Settings where
  brand : String
  support_phone : String
  support_email : String
  bkash_number : String
  nagad_number : String
  verification_sla : String
  banners : List String
  seo_title : String
  seo_desc : String
  seo_og_image : String
  maintenance : Bool
  shipping_methods : List ShippingMethod
  free_shipping_threshold : ℚ
deriving DecidableEq, Repr

/-- Value of `lo.py SITE_NAME` (default of the environment variable). -/
def SITE_NAME : String := "TeeLux"

/-- The default settings document inserted by `get_settings` when no
document with id `'main'` exists. -/
def defaultSettings : Settings :=
  { brand := SITE_NAME
    support_phone := "1234567890"
    support_email := "support@teelux.com"
    bkash_number := "01xxxxxxxxx"
    nagad_number := "01xxxxxxxxx"
    verification_sla := "24"
    banners := []
    seo_title := SITE_NAME
    seo_desc := "Premium T-Shirts"
    seo_og_image := ""
    maintenance := false
    shipping_methods :=
      [⟨"Standard", 50, "3-5 days"⟩, ⟨"Express", 100, "1-2 days"⟩]
    free_shipping_threshold := 1000 }

/-- Embedding of `lo.py get_settings`: reads the singleton settings document
(`Option Settings` embeds `find_one({'_id': 'main'})`); when it is
missing, inserts and returns the default document.  Result:
`(returned settings, settings store afterwards, whether a write happened)`. -/
def get_settings (store : Option Settings) : Settings × Option Settings × Bool :=
  match store with
  | some s => (s, some s, false)
  | none => (defaultSettings, some defaultSettings, true)

/-- Characters kept by werkzeug's `secure_filename`
(regex `[^A-Za-z0-9_.-]` is stripped). -/
def isFilenameChar (c : Char) : Bool :=
  c.isAlphanum || c == '_' || c == '.' || c == '-'

/-- Worker mirroring Python `"_".join(s.split())`: runs of whitespace
collapse to a single `'_'`, with nothing emitted at either end. -/
def joinSplitAux : List Char → Bool → Bool → List Char
  | [], _, _ => []
  | c :: rest, started, pend =>
    if c.isWhitespace then joinSplitAux rest started true
    else
      if started && pend then '_' :: c :: joinSplitAux rest true false
      else c :: joinSplitAux rest true false

/-- Drop from both ends: `l.dropWhile` applied at both ends. -/
def trimWhile (p : Char → Bool) (l : List Char) : List Char :=
  ((l.dropWhile p).reverse.dropWhile p).reverse

/-- Embedding of werkzeug's `secure_filename` on ASCII input (POSIX):
path separators become spaces, whitespace runs become single
underscores, characters outside `[A-Za-z0-9_.-]` are removed, and
leading/trailing `'.'`/`'_'` are stripped. -/
def secure_filename (s : String) : String :=
  let step1 := s.data.map fun c => if c == '/' then ' ' else c
  let step2 := joinSplitAux step1 false false
  let step3 := step2.filter isFilenameChar
  ⟨trimWhile (fun c => c == '.' || c == '_') step3⟩

/-- The uploaded file as seen by `upload_image` (only its client-supplied
filename matters for the control flow). -/
structure UploadFile where
  filename : String
deriving DecidableEq, Repr

/-- The extension check of `lo.py upload_image`:
`filename.lower().endswith(('.png', '.jpg', '.jpeg'))`. -/
def allowedImageExt (s : String) : Bool :=
  [".png", ".jpg", ".jpeg"].any fun e => e.data.isSuffixOf (lowerStr s).data

/-- Embedding of `lo.py upload_image`: `None` when no file was sent or the sanitized
filename lacks an allowed image extension; otherwise the file is saved
under `uuid4() + '_' + filename`.  The fresh UUID is passed in as
`nonce`; the second component lists the filenames written to disk. -/
def upload_image (file : Option UploadFile) (nonce : String) :
    Option String × List String :=
  match file with
  | none => (none, [])
  | some f =>
    let filename := secure_filename f.filename
    if allowedImageExt filename then
      let uniqueName := nonce ++ "_" ++ filename
      (some uniqueName, [uniqueName])
    else (none, [])

/-- The in-process rate-limit table `request_counts`: client ip →
timestamps of admitted requests (absent key ↦ `none`). -/
def RateMap : Type := String → Option (List Int)

/-- Python dict assignment `request_counts[ip] = ts`. -/
def rlSet (m : RateMap) (ip : String) (ts : List Int) : RateMap :=
  fun k => if k = ip then some ts else m k

/-- Embedding of `lo.py rate_limit`: prune the ip's timestamps to the last minute
(strictly newer than `now - 60` seconds, written back to the map even
when the request is then rejected), reject with HTTP 429 when ten or
more remain, otherwise record `now` and admit.  Result:
`(admitted?, map afterwards)`. -/
def rate_limit (m : RateMap) (ip : String) (now : Int) : Bool × RateMap :=
  let pruned := ((m ip).getD []).filter fun t => now - 60 < t
  let m1 := rlSet m ip pruned
  if 10 ≤ pruned.length then (false, m1)
  else (true, rlSet m1 ip (pruned ++ [now]))

/-- Modelled from the spec: the coupon type (§3) — percentage or fixed
amount. -/
inductive CouponType where
  | percentage
  | fixed
deriving DecidableEq, Repr

/-- Modelled from the spec: the Coupon document (§3), needed because the
checkout/coupon route handlers are absent from the source file.  `value`
is a percentage in (0,100] or a fixed amount; `expires_at` is an
optional expiry timestamp; `usage_limit` an optional cap on
`used_count`. -/
structure Coupon where
  code : String
  couponType : CouponType
  value : ℚ
  min_order : ℚ
  usage_limit : Option Nat
  used_count : Nat
  expires_at : Option Int
  active : Bool
deriving DecidableEq, Repr

/-- Modelled from the spec: a cart line (§3 CartLine) — unit price is the
variant price-override when present, else the product price; the sku
identifies the variant whose stock is committed. -/
structure CartLine where
  productPrice : ℚ
  priceOverride : Option ℚ
  qty : Nat
  sku : String
deriving DecidableEq, Repr

/-- Modelled from the spec: the priced quote returned by the Pricing
Engine (§4.1). -/
structure Quote where
  subtotal : ℚ
  discount : ℚ
  shipping_fee : ℚ
  total : ℚ
  coupon_applied : Option String
deriving DecidableEq, Repr

/-- Modelled from the spec: the error kinds of `quote` (§4.1, §7). -/
inductive PricingError where
  | emptyCart
  | couponNotFound
  | couponExpired
  | couponExhausted
  | couponMinimumNotMet
  | couponInactive
  | unknownShippingMethod
deriving DecidableEq, Repr

/-- Unit price of a cart line: variant price-override when present, else
the product price. -/
def unitPrice (l : CartLine) : ℚ :=
  l.priceOverride.getD l.productPrice

/-- Subtotal: sum over cart lines of unit price × quantity. -/
def subtotalOf (cart : List CartLine) : ℚ :=
  (cart.map fun l => unitPrice l * l.qty).sum

/-- Case-insensitive coupon lookup in the coupon store. -/
def findCoupon (store : List Coupon) (code : String) : Option Coupon :=
  store.find? fun c => lowerStr c.code == lowerStr code

/-- Modelled from the spec: coupon applicability checks of `quote`
(§4.1) — expired, exhausted, minimum not met, inactive.  Returns the
violation, or `none` when the coupon is applicable. -/
def validateCoupon (c : Coupon) (subtotal : ℚ) (now : Int) :
    Option PricingError :=
  if c.expires_at.any (fun t => t < now) then
    some .couponExpired
  else if c.usage_limit.any (fun l => l ≤ c.used_count) then
    some .couponExhausted
  else if subtotal < c.min_order then some .couponMinimumNotMet
  else if !c.active then some .couponInactive
  else none

/-- Modelled from the spec: the discount of an applicable coupon (§4.1) —
`subtotal × value/100` capped at the subtotal (percentage), or
`min(value, subtotal)` (fixed). -/
def couponDiscount (c : Coupon) (subtotal : ℚ) : ℚ :=
  match c.couponType with
  | .percentage => min (subtotal * c.value / 100) subtotal
  | .fixed => min c.value subtotal

/-- Shipping-method lookup by name in the settings document. -/
def findMethod (ms : List ShippingMethod) (nm : String) : Option ShippingMethod :=
  ms.find? fun m => m.name == nm

/-- Modelled from the spec: coupon resolution of `quote` (§4.1) — no
coupon code means no discount; otherwise case-insensitive lookup
(`CouponNotFoundError` when absent), the applicability checks, and the
discount computation.  Returns `(discount, applied coupon code)`. -/
def resolveCoupon (store : List Coupon) (subtotal : ℚ)
    (couponCode : Option String) (now : Int) :
    Except PricingError (ℚ × Option String) :=
  match couponCode with
  | none => .ok (0, none)
  | some code =>
    match findCoupon store code with
    | none => .error .couponNotFound
    | some c =>
      match validateCoupon c subtotal now with
      | some e => .error e
      | none => .ok (couponDiscount c subtotal, some code)

/-- Modelled from the spec: the computation of the Pricing Engine
`quote` (§4.1) — subtotal (`EmptyCartError` on an empty cart), coupon
resolution, shipping-method lookup (`UnknownShippingMethodError` when
absent), fee 0 when `subtotal − discount ≥ free_shipping_threshold`
else the method's flat fee, total `subtotal − discount + fee` clamped
to ≥ 0. -/
def quoteResult (store : List Coupon) (cart : List CartLine)
    (couponCode : Option String) (methodName : String)
    (settings : Settings) (now : Int) : Except PricingError Quote :=
  if cart.isEmpty then .error .emptyCart
  else
    let subtotal := subtotalOf cart
    match resolveCoupon store subtotal couponCode now with
    | .error e => .error e
    | .ok (discount, applied) =>
      match findMethod settings.shipping_methods methodName with
      | none => .error .unknownShippingMethod
      | some m =>
        let fee :=
          if settings.free_shipping_threshold ≤ subtotal - discount then 0
          else m.fee
        .ok ⟨subtotal, discount, fee, max 0 (subtotal - discount + fee), applied⟩

/-- Modelled from the spec: the Pricing Engine `quote` (§4.1), absent
from the source file.  Pure computation: subtotal, coupon resolution
with the case-insensitive lookup and applicability checks, shipping fee
(0 when `subtotal − discount ≥ free_shipping_threshold`, else the
method's flat fee), total clamped to ≥ 0.  The coupon store is returned
unchanged — `quote` has no persistence side effects. -/
def quote (store : List Coupon) (cart : List CartLine)
    (couponCode : Option String) (methodName : String)
    (settings : Settings) (now : Int) :
    Except PricingError Quote × List Coupon :=
  (quoteResult store cart couponCode methodName settings now, store)

/-- Modelled from the spec: the order status state machine's states
(§4.2). -/
inductive OrderStatus where
  | pending_verification
  | verified
  | processing
  | shipped
  | delivered
  | canceled
  | refunded
deriving DecidableEq, Repr

/-- Modelled from the spec: the allowed-transition table (§4.2) —
`pending_verification → verified → processing → shipped → delivered`,
plus any of the first three states → `canceled` or `refunded`;
`delivered`, `canceled`, `refunded` are terminal. -/
def allowedTransition : OrderStatus → OrderStatus → Bool
  | .pending_verification, .verified => true
  | .verified, .processing => true
  | .processing, .shipped => true
  | .shipped, .delivered => true
  | .pending_verification, .canceled => true
  | .verified, .canceled => true
  | .processing, .canceled => true
  | .pending_verification, .refunded => true
  | .verified, .refunded => true
  | .processing, .refunded => true
  | _, _ => false

/-- Modelled from the spec: a snapshotted order line item (§3 Order) —
variant identity, quantity and unit price copied at order time. -/
structure OrderItem where
  sku : String
  qty : Nat
  price : ℚ
deriving DecidableEq, Repr

/-- Modelled from the spec: the Order document (§3), restricted to the
fields the lifecycle claims are about. -/
structure Order where
  order_id : Nat
  items : List OrderItem
  couponUsed : Option String
  amounts : Quote
  status : OrderStatus
  created_at : Int
  updated_at : Int
deriving DecidableEq, Repr

/-- The shared persistent state the Order Lifecycle Manager operates on:
per-sku variant stock (an integer counter, as Mongo's `$inc` never
clamps), the coupon store, the orders collection and the order-id
counter. -/
structure StoreState where
  stock : List (String × Int)
  coupons : List Coupon
  orders : List Order
  counter : Nat
deriving DecidableEq, Repr

/-- Stock of the variant with the given sku, when present. -/
def lookupStock (stock : List (String × Int)) (sku : String) : Option Int :=
  (stock.find? fun p => p.1 == sku).map fun p => p.2

/-- Mongo `$inc` on the stock of every variant matching the sku. -/
def adjustStock (stock : List (String × Int)) (sku : String) (d : Int) :
    List (String × Int) :=
  stock.map fun p => if p.1 == sku then (p.1, p.2 + d) else p

/-- Stock commitment of `create_order` step 4: decrement each item's
variant stock by the ordered quantity. -/
def commitStock (stock : List (String × Int)) (items : List OrderItem) :
    List (String × Int) :=
  items.foldl (fun acc i => adjustStock acc i.sku (-(i.qty : Int))) stock

/-- Stock restoration of `advance_status` on cancel/refund: increment
each item's variant stock back by the ordered quantity. -/
def restoreStock (stock : List (String × Int)) (items : List OrderItem) :
    List (String × Int) :=
  items.foldl (fun acc i => adjustStock acc i.sku (i.qty : Int)) stock

/-- Increment `used_count` of the coupon with the given code (`$inc` on
the case-insensitive match). -/
def incUsed (store : List Coupon) (code : String) : List Coupon :=
  store.map fun c =>
    if lowerStr c.code == lowerStr code then
      { c with used_count := c.used_count + 1 }
    else c

/-- Best-effort decrement of `used_count` on cancel/refund reversal; a
deleted coupon simply matches nothing and the reversal is skipped. -/
def decUsed (store : List Coupon) (code : String) : List Coupon :=
  store.map fun c =>
    if lowerStr c.code == lowerStr code then
      { c with used_count := c.used_count - 1 }
    else c

/-- Modelled from the spec: the error kinds of the Order Lifecycle
Manager (§4.2, §7). -/
inductive LifecycleError where
  | pricing (e : PricingError)
  | insufficientStock (sku : String)
  | orderNotFound
  | invalidTransition
deriving DecidableEq, Repr

/-- Check of `create_order` step 2: variant stock covers the requested quantity
(a missing variant fails the check). -/
def stockOk (stock : List (String × Int)) (l : CartLine) : Bool :=
  match lookupStock stock l.sku with
  | some s => (l.qty : Int) ≤ s
  | none => false

/-- Snapshot of the cart as order line items (`create_order` step 6). -/
def snapshotItems (cart : List CartLine) : List OrderItem :=
  cart.map fun l => ⟨l.sku, l.qty, unitPrice l⟩

/-- Modelled from the spec: `create_order` (§4.2), absent from the
source file.  Re-runs the Pricing Engine, validates stock per line,
assigns the next order id, decrements variant stock, increments the
applied coupon's `used_count`, snapshots the line items and appends the
order (status `pending_verification`, `created_at = updated_at = now`). -/
def create_order (st : StoreState) (cart : List CartLine)
    (couponCode : Option String) (methodName : String)
    (settings : Settings) (now : Int) :
    Except LifecycleError (Order × StoreState) :=
  match quoteResult st.coupons cart couponCode methodName settings now with
  | .error e => .error (.pricing e)
  | .ok q =>
    match cart.find? fun l => !stockOk st.stock l with
    | some l => .error (.insufficientStock l.sku)
    | none =>
      let oid := (get_next_order_id st.counter).1
      let items := snapshotItems cart
      let order : Order :=
        ⟨oid, items, q.coupon_applied, q, .pending_verification, now, now⟩
      let coupons1 :=
        match q.coupon_applied with
        | some code => incUsed st.coupons code
        | none => st.coupons
      .ok (order,
        ⟨commitStock st.stock items, coupons1, st.orders ++ [order],
          (get_next_order_id st.counter).2⟩)

/-- Lookup of an order by its sequential order id. -/
def findOrder (orders : List Order) (oid : Nat) : Option Order :=
  orders.find? fun o => o.order_id == oid

/-- Replace the order with the given id in the orders collection. -/
def setOrder (orders : List Order) (oid : Nat) (o' : Order) : List Order :=
  orders.map fun o => if o.order_id == oid then o' else o

/-- Modelled from the spec: `advance_status` (§4.2), absent from the
source file.  Enforces the transition table; on success sets the new
status and `updated_at := now`; on a transition into `canceled` or
`refunded` additionally restores the decremented variant stock and
best-effort-decrements the applied coupon's `used_count`.  On failure
the state is left unchanged. -/
def advance_status (st : StoreState) (oid : Nat) (newStatus : OrderStatus)
    (now : Int) : Except LifecycleError Order × StoreState :=
  match findOrder st.orders oid with
  | none => (.error .orderNotFound, st)
  | some o =>
    if allowedTransition o.status newStatus then
      let o' := { o with status := newStatus, updated_at := now }
      if newStatus = .canceled ∨ newStatus = .refunded then
        let coupons1 :=
          match o.couponUsed with
          | some code => decUsed st.coupons code
          | none => st.coupons
        (.ok o',
          ⟨restoreStock st.stock o.items, coupons1,
            setOrder st.orders oid o', st.counter⟩)
      else
        (.ok o', { st with orders := setOrder st.orders oid o' })
    else (.error .invalidTransition, st)

/-- Concrete fixture: an order awaiting payment verification. -/
def witnessOrder : Order :=
  ⟨1, [], none, ⟨0, 0, 0, 0, none⟩, .pending_verification, 0, 0⟩

/-- Concrete fixture: a store holding only `witnessOrder`. -/
def witnessStore : StoreState := ⟨[], [], [witnessOrder], 1⟩

/-- Concrete fixture: a two-unit `SKU1` order that has been verified and
moved to `processing` (its creation decremented `SKU1` stock by 2). -/
def processingOrder : Order :=
  ⟨1, [⟨"SKU1", 2, 3⟩], none, ⟨6, 0, 50, 56, none⟩, .processing, 0, 5⟩

/-- Concrete fixture: the store holding `processingOrder`, its `SKU1`
stock of 3 being the pre-order 5 minus the committed 2. -/
def processingStore : StoreState := ⟨[("SKU1", 3)], [], [processingOrder], 1⟩

/-! ## Helper lemmas -/

theorem lowerStr_append (a b : String) :
    lowerStr (a ++ b) = lowerStr a ++ lowerStr b := by
  apply String.ext
  simp [lowerStr, String.data_append]

theorem upperStr_append (a b : String) :
    upperStr (a ++ b) = upperStr a ++ upperStr b := by
  apply String.ext
  simp [upperStr, String.data_append]

theorem orderIds_eq_range' (n c : Nat) : orderIds c n = List.range' (c + 1) n := by
  induction n generalizing c with
  | zero => rfl
  | succ n ih => simp [orderIds, get_next_order_id, ih, List.range']

/-! ## Claim theorems -/

/-- C3: order ids form a strictly increasing, duplicate-free sequence:
`get_next_order_id` increments the shared counter by one and returns the
post-increment value, of two successive calls the later returns a
strictly greater id, and `n` successive calls receive `n` pairwise
distinct (indeed strictly increasing) ids. -/
theorem order_id_sequence_strictly_increasing :
    (∀ seq : Nat, get_next_order_id seq = (seq + 1, seq + 1))
    ∧ (∀ seq : Nat,
        (get_next_order_id seq).1 <
          (get_next_order_id (get_next_order_id seq).2).1)
    ∧ (∀ seq n : Nat, (orderIds seq n).length = n)
    ∧ (∀ seq n : Nat, (orderIds seq n).Pairwise (· < ·))
    ∧ (∀ seq n : Nat, (orderIds seq n).Nodup) := by
  refine ⟨fun seq => rfl, fun seq => by simp [get_next_order_id], ?_, ?_, ?_⟩
  · intro seq n
    rw [orderIds_eq_range', List.length_range']
  · intro seq n
    rw [orderIds_eq_range']
    exact List.pairwise_lt_range' _ n
  · intro seq n
    rw [orderIds_eq_range']
    exact List.nodup_range' _ n

/-- C9: when no settings document exists, `get_settings` inserts and
returns the default document, whose shipping methods are exactly
Standard (fee 50) and Express (fee 100) and whose free-shipping
threshold is 1000; when a document exists it is returned unchanged with
no write. -/
theorem get_settings_default_and_readonly :
    get_settings none = (defaultSettings, some defaultSettings, true)
    ∧ defaultSettings.shipping_methods =
        [⟨"Standard", 50, "3-5 days"⟩, ⟨"Express", 100, "1-2 days"⟩]
    ∧ defaultSettings.free_shipping_threshold = 1000
    ∧ (∀ s : Settings, get_settings (some s) = (s, some s, false)) :=
  ⟨rfl, rfl, rfl, fun _ => rfl⟩

/-- C5: `quote` is idempotent and side-effect-free — it returns the
coupon store unchanged (in particular no `used_count` changes), and
re-running it on the state left by a first run returns the identical
result. -/
theorem quote_idempotent_no_side_effects :
    ∀ (store : List Coupon) (cart : List CartLine) (cc : Option String)
      (mn : String) (settings : Settings) (now : Int),
      (quote store cart cc mn settings now).2 = store
      ∧ (quote store cart cc mn settings now).2.map Coupon.used_count
          = store.map Coupon.used_count
      ∧ quote ((quote store cart cc mn settings now).2) cart cc mn settings now
          = quote store cart cc mn settings now :=
  fun _ _ _ _ _ _ => ⟨rfl, rfl, rfl⟩

/-- C8: `rate_limit` keeps a per-ip sliding one-minute window — the
request is admitted exactly when fewer than 10 recorded timestamps are
newer than `now − 60`; on admission `now` is appended to the pruned
list, on rejection only the pruned list is written back; a key present
in the map stays present, and the handled ip's key is present
afterwards. -/
theorem rate_limit_sliding_window :
    ∀ (m : RateMap) (ip : String) (now : Int),
      ((rate_limit m ip now).1 = true ↔
        (((m ip).getD []).filter fun t => now - 60 < t).length < 10)
      ∧ ((rate_limit m ip now).1 = true →
          (rate_limit m ip now).2 ip =
            some ((((m ip).getD []).filter fun t => now - 60 < t) ++ [now]))
      ∧ ((rate_limit m ip now).1 = false →
          (rate_limit m ip now).2 ip =
            some (((m ip).getD []).filter fun t => now - 60 < t))
      ∧ (∀ k, (m k).isSome = true → ((rate_limit m ip now).2 k).isSome = true)
      ∧ ((rate_limit m ip now).2 ip).isSome = true := by
  intro m ip now
  by_cases h : 10 ≤ (((m ip).getD []).filter fun t => now - 60 < t).length
  · refine ⟨?_, ?_, ?_, ?_, ?_⟩ <;>
      simp [rate_limit, rlSet, h, Nat.not_lt.mpr h]
    intro k hk
    split <;> simp [hk]
  · refine ⟨?_, ?_, ?_, ?_, ?_⟩ <;>
      simp [rate_limit, rlSet, h, Nat.lt_of_not_le h]
    intro k hk
    split <;> simp [hk]

theorem subtotalOf_nonneg (cart : List CartLine)
    (h : ∀ l ∈ cart, 0 ≤ unitPrice l) : 0 ≤ subtotalOf cart := by
  apply List.sum_nonneg
  intro x hx
  simp only [List.mem_map] at hx
  obtain ⟨l, hl, rfl⟩ := hx
  exact mul_nonneg (h l hl) (by positivity)

theorem couponDiscount_bounds (c : Coupon) (sub : ℚ)
    (hv : 0 ≤ c.value) (hs : 0 ≤ sub) :
    0 ≤ couponDiscount c sub ∧ couponDiscount c sub ≤ sub := by
  unfold couponDiscount
  cases hct : c.couponType
  · exact ⟨le_min (div_nonneg (mul_nonneg hs hv) (by norm_num)) hs,
      min_le_right _ _⟩
  · exact ⟨le_min hv hs, min_le_right _ _⟩

/-- C1: a successful quote on a cart with a coupon applied has
`0 ≤ discount ≤ subtotal` (hence `subtotal − discount ≥ 0`), the
discount of a percentage coupon being `subtotal × value/100` capped at
the subtotal, that of a fixed coupon being `min(value, subtotal)` —
under the data-model invariants that unit prices and coupon values are
nonnegative. -/
theorem quote_valid_coupon_discount_bounds :
    ∀ (store : List Coupon) (cart : List CartLine) (code mn : String)
      (settings : Settings) (now : Int) (q : Quote),
      (∀ l ∈ cart, 0 ≤ unitPrice l) →
      (∀ c ∈ store, 0 ≤ c.value) →
      (quote store cart (some code) mn settings now).1 = .ok q →
      q.coupon_applied = some code
      ∧ 0 ≤ q.discount ∧ q.discount ≤ q.subtotal ∧ 0 ≤ q.subtotal - q.discount
      ∧ ∃ c, findCoupon store code = some c
          ∧ (c.couponType = .percentage →
              q.discount = min (q.subtotal * c.value / 100) q.subtotal)
          ∧ (c.couponType = .fixed → q.discount = min c.value q.subtotal) := by
  intro store cart code mn settings now q hprices hvals hq
  have hq' : quoteResult store cart (some code) mn settings now = .ok q := hq
  simp only [quoteResult] at hq'
  split at hq'
  · exact absurd hq' (by simp)
  · split at hq'
    · exact absurd hq' (by simp)
    · rename_i p heq
      split at hq'
      · exact absurd hq' (by simp)
      · rename_i m hm
        rw [Except.ok.injEq] at hq'
        subst hq'
        simp only [resolveCoupon] at heq
        split at heq
        · exact absurd heq (by simp)
        · rename_i c hc
          split at heq
          · exact absurd heq (by simp)
          · rw [Except.ok.injEq, Prod.mk.injEq] at heq
            obtain ⟨hd, hp⟩ := heq
            subst hd
            subst hp
            have hcmem : c ∈ store := List.mem_of_find?_eq_some hc
            have hsub : 0 ≤ subtotalOf cart := subtotalOf_nonneg cart hprices
            have hbnd := couponDiscount_bounds c (subtotalOf cart)
              (hvals c hcmem) hsub
            refine ⟨rfl, hbnd.1, hbnd.2, by linarith [hbnd.2], c, hc, ?_, ?_⟩
            · intro hct
              simp [couponDiscount, hct]
            · intro hct
              simp [couponDiscount, hct]

theorem quote_save10_eval :
    (quote [⟨"SAVE10", .percentage, 10, 0, none, 0, none, true⟩]
      [⟨500, none, 2, "SKU1"⟩] (some "SAVE10") "Standard" defaultSettings 0).1
      = .ok ⟨1000, 100, 50, 950, some "SAVE10"⟩ := by
  have hsub : subtotalOf [⟨500, none, 2, "SKU1"⟩] = 1000 := by
    simp [subtotalOf, unitPrice]
    norm_num
  simp only [quote]
  simp [quoteResult, resolveCoupon, findCoupon, validateCoupon, couponDiscount,
    findMethod, defaultSettings, hsub, List.find?]
  norm_num [min_def]

/-- C1 witness: a 10% coupon on a 1000-subtotal cart yields discount 100
with all the stated bounds. -/
theorem quote_valid_coupon_discount_bounds_witness :
    (⟨1000, 100, 50, 950, some "SAVE10"⟩ : Quote).coupon_applied = some "SAVE10"
    ∧ 0 ≤ (⟨1000, 100, 50, 950, some "SAVE10"⟩ : Quote).discount
    ∧ (⟨1000, 100, 50, 950, some "SAVE10"⟩ : Quote).discount ≤
        (⟨1000, 100, 50, 950, some "SAVE10"⟩ : Quote).subtotal
    ∧ 0 ≤ (⟨1000, 100, 50, 950, some "SAVE10"⟩ : Quote).subtotal -
        (⟨1000, 100, 50, 950, some "SAVE10"⟩ : Quote).discount
    ∧ ∃ c, findCoupon [⟨"SAVE10", .percentage, 10, 0, none, 0, none, true⟩]
          "SAVE10" = some c
        ∧ (c.couponType = .percentage →
            (⟨1000, 100, 50, 950, some "SAVE10"⟩ : Quote).discount =
              min ((⟨1000, 100, 50, 950, some "SAVE10"⟩ : Quote).subtotal *
                c.value / 100)
                (⟨1000, 100, 50, 950, some "SAVE10"⟩ : Quote).subtotal)
        ∧ (c.couponType = .fixed →
            (⟨1000, 100, 50, 950, some "SAVE10"⟩ : Quote).discount =
              min c.value (⟨1000, 100, 50, 950, some "SAVE10"⟩ : Quote).subtotal) :=
  quote_valid_coupon_discount_bounds
    [⟨"SAVE10", .percentage, 10, 0, none, 0, none, true⟩]
    [⟨500, none, 2, "SKU1"⟩] "SAVE10" "Standard" defaultSettings 0
    ⟨1000, 100, 50, 950, some "SAVE10"⟩
    (by intro l hl
        simp only [List.mem_singleton] at hl
        subst hl
        norm_num [unitPrice])
    (by intro c hc
        simp only [List.mem_singleton] at hc
        subst hc
        norm_num)
    quote_save10_eval

/-- C2: on a successful quote whose chosen shipping method resolves in
the settings, the shipping fee is 0 when
`subtotal − discount ≥ free_shipping_threshold` and the method's flat
fee otherwise. -/
theorem quote_shipping_fee_rule :
    ∀ (store : List Coupon) (cart : List CartLine) (cc : Option String)
      (mn : String) (settings : Settings) (now : Int) (q : Quote)
      (m : ShippingMethod),
      (quote store cart cc mn settings now).1 = .ok q →
      findMethod settings.shipping_methods mn = some m →
      q.shipping_fee =
        if settings.free_shipping_threshold ≤ q.subtotal - q.discount then 0
        else m.fee := by
  intro store cart cc mn settings now q m hq hm
  have hq' : quoteResult store cart cc mn settings now = .ok q := hq
  simp only [quoteResult] at hq'
  split at hq'
  · exact absurd hq' (by simp)
  · split at hq'
    · exact absurd hq' (by simp)
    · rename_i p heq
      split at hq'
      · exact absurd hq' (by simp)
      · rename_i m0 hm0
        rw [hm0, Option.some.injEq] at hm
        subst hm
        rw [Except.ok.injEq] at hq'
        subst hq'
        rfl

/-- C2 witness: with the default settings, a discounted amount of 900
misses the 1000 threshold and the Standard fee of 50 is charged. -/
theorem quote_shipping_fee_rule_witness :
    (⟨1000, 100, 50, 950, some "SAVE10"⟩ : Quote).shipping_fee =
      if defaultSettings.free_shipping_threshold ≤
          (⟨1000, 100, 50, 950, some "SAVE10"⟩ : Quote).subtotal -
            (⟨1000, 100, 50, 950, some "SAVE10"⟩ : Quote).discount then 0
      else (⟨"Standard", 50, "3-5 days"⟩ : ShippingMethod).fee :=
  quote_shipping_fee_rule
    [⟨"SAVE10", .percentage, 10, 0, none, 0, none, true⟩]
    [⟨500, none, 2, "SKU1"⟩] (some "SAVE10") "Standard" defaultSettings 0
    ⟨1000, 100, 50, 950, some "SAVE10"⟩ ⟨"Standard", 50, "3-5 days"⟩
    quote_save10_eval
    (by simp [findMethod, defaultSettings, List.find?])

theorem isSuffixOf_append_left (e y x : List Char)
    (h : e.isSuffixOf y = true) : e.isSuffixOf (x ++ y) = true := by
  rw [List.isSuffixOf, List.isPrefixOf_iff_prefix] at *
  rw [List.reverse_append]
  exact h.trans (List.prefix_append _ _)

theorem underscore_inj :
    ∀ (a b r r' : List Char), '_' ∉ a → '_' ∉ b →
      a ++ '_' :: r = b ++ '_' :: r' → a = b := by
  intro a
  induction a with
  | nil =>
    intro b r r' _ hb h
    cases b with
    | nil => rfl
    | cons c bs =>
      simp only [List.nil_append, List.cons_append, List.cons.injEq] at h
      exact absurd (h.1 ▸ List.mem_cons_self c bs) hb
  | cons c as ih =>
    intro b r r' ha hb h
    cases b with
    | nil =>
      simp only [List.cons_append, List.nil_append, List.cons.injEq] at h
      exact absurd (h.1 ▸ List.mem_cons_self c as) ha
    | cons c' bs =>
      simp only [List.cons_append, List.cons.injEq] at h
      obtain ⟨rfl, h2⟩ := h
      rw [ih bs r r' (fun hm => ha (List.mem_cons_of_mem _ hm))
        (fun hm => hb (List.mem_cons_of_mem _ hm)) h2]

theorem underscore_name_inj (n n' f f' : String)
    (hn : '_' ∉ n.data) (hn' : '_' ∉ n'.data) (hne : n ≠ n') :
    n ++ "_" ++ f ≠ n' ++ "_" ++ f' := by
  intro h
  apply hne
  apply String.ext
  have hd := congrArg String.data h
  simp only [String.data_append] at hd
  simp only [List.append_assoc, List.singleton_append] at hd
  exact underscore_inj _ _ _ _ hn hn' hd

/-- C7 counterexample: two distinct (color, size) pairs of the same
product — differing only in letter case — produce the same SKU code. -/
theorem generate_sku_case_collision :
    generate_sku "Classic Tee" "Red" "M" = generate_sku "Classic Tee" "red" "m"
    ∧ (("Red", "M") : String × String) ≠ (("red", "m") : String × String) := by
  decide

/-- C7 (amended): `generate_sku` is deterministic (equal inputs give
equal SKUs), and the SKU depends only on the slug/case-normalized
inputs: two variants whose colors have the same slug and whose sizes
agree up to case receive the same SKU, so distinct (color, size) pairs
are only guaranteed distinct SKUs when they differ after
normalization. -/
theorem generate_sku_normalized :
    (∀ n c z n' c' z', n = n' → c = c' → z = z' →
      generate_sku n c z = generate_sku n' c' z')
    ∧ (∀ n c z c' z', slugify c = slugify c' → upperStr z = upperStr z' →
        generate_sku n c z = generate_sku n c' z') := by
  constructor
  · rintro n c z n' c' z' rfl rfl rfl
    rfl
  · intro n c z c' z' hc hz
    simp only [generate_sku, upperStr_append, hc, hz]

/-- C7 witness: two case-variant inputs with equal normal forms receive
the same SKU. -/
theorem generate_sku_normalized_witness :
    generate_sku "Classic Tee" "Navy" "L" = generate_sku "Classic Tee" "NAVY" "l" :=
  generate_sku_normalized.2 "Classic Tee" "Navy" "L" "NAVY" "l"
    (by decide) (by decide)

/-- C10: `upload_image` rejects (returns `none`, writes nothing) when no
file was sent or when the sanitized filename lacks an allowed image
extension; it accepts otherwise, returning (and writing) the
nonce-prefixed filename; every returned filename carries an allowed
image extension; and filenames built from distinct underscore-free
nonces are distinct. -/
theorem upload_image_extension_gate :
    ∀ nonce : String,
      upload_image none nonce = (none, [])
      ∧ (∀ f : UploadFile,
          allowedImageExt (secure_filename f.filename) = false →
          upload_image (some f) nonce = (none, []))
      ∧ (∀ f : UploadFile,
          allowedImageExt (secure_filename f.filename) = true →
          upload_image (some f) nonce =
            (some (nonce ++ "_" ++ secure_filename f.filename),
              [nonce ++ "_" ++ secure_filename f.filename]))
      ∧ (∀ (file : Option UploadFile) (name : String),
          (upload_image file nonce).1 = some name →
          allowedImageExt name = true)
      ∧ (∀ (nonce' : String) (f f' : Option UploadFile) (name name' : String),
          '_' ∉ nonce.data → '_' ∉ nonce'.data → nonce ≠ nonce' →
          (upload_image f nonce).1 = some name →
          (upload_image f' nonce').1 = some name' → name ≠ name') := by
  intro nonce
  have hacc : ∀ (n : String) (f : UploadFile) (name : String),
      (upload_image (some f) n).1 = some name →
      allowedImageExt (secure_filename f.filename) = true
        ∧ name = n ++ "_" ++ secure_filename f.filename := by
    intro n f name h
    by_cases hext : allowedImageExt (secure_filename f.filename) = true
    · simp only [upload_image, hext, if_true] at h
      exact ⟨hext, (Option.some.injEq _ _ ▸ h).symm⟩
    · simp only [upload_image, Bool.not_eq_true] at hext
      simp [upload_image, hext] at h
  refine ⟨rfl, ?_, ?_, ?_, ?_⟩
  · intro f hext
    simp [upload_image, hext]
  · intro f hext
    simp [upload_image, hext]
  · intro file name h
    cases file with
    | none => simp [upload_image] at h
    | some f =>
      obtain ⟨hext, rfl⟩ := hacc nonce f name h
      rw [allowedImageExt, List.any_eq_true] at hext ⊢
      obtain ⟨e, he, hsuf⟩ := hext
      refine ⟨e, he, ?_⟩
      rw [lowerStr_append, String.data_append]
      exact isSuffixOf_append_left _ _ _ hsuf
  · intro nonce' f f' name name' hn hn' hne hres hres'
    cases f with
    | none => simp [upload_image] at hres
    | some g =>
      cases f' with
      | none => simp [upload_image] at hres'
      | some g' =>
        obtain ⟨_, rfl⟩ := hacc nonce g name hres
        obtain ⟨_, rfl⟩ := hacc nonce' g' name' hres'
        exact underscore_name_inj _ _ _ _ hn hn' hne

/-- C10 witness: an accepted `.PNG` upload is stored under the
nonce-prefixed sanitized filename. -/
theorem upload_image_extension_gate_witness :
    upload_image (some ⟨"shot.PNG"⟩) "u1" =
      (some ("u1" ++ "_" ++ secure_filename "shot.PNG"),
        ["u1" ++ "_" ++ secure_filename "shot.PNG"]) :=
  (upload_image_extension_gate "u1").2.2.1 ⟨"shot.PNG"⟩ (by decide)

/-- C8 witness: a fresh map admits the first request from an ip and
records its timestamp. -/
theorem rate_limit_sliding_window_witness :
    (rate_limit (fun _ => none) "203.0.113.7" 100).2 "203.0.113.7" =
      some (((((fun _ => (none : Option (List Int))) "203.0.113.7").getD []).filter
        fun t => 100 - 60 < t) ++ [100]) :=
  (rate_limit_sliding_window (fun _ => none) "203.0.113.7" 100).2.1 (by decide)

theorem adjustStock_adjustStock (l : List (String × Int)) (s : String)
    (d e : Int) :
    adjustStock (adjustStock l s d) s e = adjustStock l s (d + e) := by
  induction l with
  | nil => rfl
  | cons p rest ih =>
    simp only [adjustStock, List.map_cons] at ih ⊢
    rw [ih]
    by_cases h : (p.1 == s) = true
    · simp [h, add_assoc]
    · simp [h]

theorem adjustStock_zero (l : List (String × Int)) (s : String) :
    adjustStock l s 0 = l := by
  induction l with
  | nil => rfl
  | cons p rest ih =>
    simp only [adjustStock, List.map_cons] at ih ⊢
    rw [ih]
    by_cases h : (p.1 == s) = true
    · simp [h]
    · simp [h]

theorem adjustStock_comm (l : List (String × Int)) (s t : String)
    (d e : Int) :
    adjustStock (adjustStock l s d) t e = adjustStock (adjustStock l t e) s d := by
  induction l with
  | nil => rfl
  | cons p rest ih =>
    simp only [adjustStock, List.map_cons] at ih ⊢
    rw [ih]
    by_cases hs : (p.1 == s) = true <;> by_cases ht : (p.1 == t) = true <;>
      simp [hs, ht]
    omega

theorem foldl_adjustStock (items : List OrderItem) (g : OrderItem → Int) :
    ∀ (l : List (String × Int)) (s : String) (d : Int),
      adjustStock (items.foldl (fun acc i => adjustStock acc i.sku (g i)) l) s d
        = items.foldl (fun acc i => adjustStock acc i.sku (g i))
            (adjustStock l s d) := by
  induction items with
  | nil => intro l s d; rfl
  | cons i rest ih =>
    intro l s d
    simp only [List.foldl_cons]
    rw [ih, adjustStock_comm]

theorem restoreStock_commitStock (items : List OrderItem) :
    ∀ l : List (String × Int), restoreStock (commitStock l items) items = l := by
  induction items with
  | nil => intro l; rfl
  | cons i rest ih =>
    intro l
    simp only [restoreStock, commitStock, List.foldl_cons] at *
    rw [foldl_adjustStock, adjustStock_adjustStock]
    simp only [neg_add_cancel, adjustStock_zero]
    exact ih l

/-- C4: with the order present in the store, `advance_status` succeeds
exactly when the (current, new) status pair is allowed, in which case
the returned order carries the new status and `updated_at = now`; any
other transition fails with `InvalidTransitionError` leaving the state
unchanged; and the allowed pairs are exactly the spec's table (so
nothing leaves `delivered`, `canceled` or `refunded`). -/
theorem advance_status_transition_table :
    ∀ (st : StoreState) (oid : Nat) (ns : OrderStatus) (now : Int) (o : Order),
      findOrder st.orders oid = some o →
      ((∃ o', (advance_status st oid ns now).1 = .ok o') ↔
        allowedTransition o.status ns = true)
      ∧ (allowedTransition o.status ns = true →
          (advance_status st oid ns now).1 =
            .ok { o with status := ns, updated_at := now })
      ∧ (allowedTransition o.status ns = false →
          advance_status st oid ns now = (.error .invalidTransition, st))
      ∧ (∀ a b : OrderStatus,
          allowedTransition a b = true ↔
            (a, b) ∈ ([(.pending_verification, .verified),
              (.verified, .processing), (.processing, .shipped),
              (.shipped, .delivered),
              (.pending_verification, .canceled), (.verified, .canceled),
              (.processing, .canceled),
              (.pending_verification, .refunded), (.verified, .refunded),
              (.processing, .refunded)] : List (OrderStatus × OrderStatus))) := by
  intro st oid ns now o hfind
  have htable : ∀ a b : OrderStatus,
      allowedTransition a b = true ↔
        (a, b) ∈ ([(.pending_verification, .verified),
          (.verified, .processing), (.processing, .shipped),
          (.shipped, .delivered),
          (.pending_verification, .canceled), (.verified, .canceled),
          (.processing, .canceled),
          (.pending_verification, .refunded), (.verified, .refunded),
          (.processing, .refunded)] : List (OrderStatus × OrderStatus)) := by
    intro a b
    cases a <;> cases b <;> decide
  by_cases hallow : allowedTransition o.status ns = true
  · have hsucc : (advance_status st oid ns now).1 =
        .ok { o with status := ns, updated_at := now } := by
      by_cases hcr : ns = .canceled ∨ ns = .refunded <;>
        simp [advance_status, hfind, hallow, hcr]
    refine ⟨⟨fun _ => hallow, fun _ => ⟨_, hsucc⟩⟩, fun _ => hsucc,
      fun hfalse => by simp [hallow] at hfalse, htable⟩
  · have hallow' : allowedTransition o.status ns = false := by
      revert hallow
      cases allowedTransition o.status ns <;> simp
    have hfail : advance_status st oid ns now = (.error .invalidTransition, st) := by
      simp [advance_status, hfind, hallow']
    refine ⟨⟨fun h => ?_, fun h => absurd h hallow⟩, fun h => absurd h hallow,
      fun _ => hfail, htable⟩
    obtain ⟨o', ho'⟩ := h
    rw [hfail] at ho'
    simp at ho'

/-- C4 witness: `pending_verification → verified` on a concrete store
satisfies all four parts of the characterization. -/
theorem advance_status_transition_table_witness :
    ((∃ o', (advance_status witnessStore 1 .verified 5).1 = .ok o') ↔
      allowedTransition witnessOrder.status .verified = true)
    ∧ (allowedTransition witnessOrder.status .verified = true →
        (advance_status witnessStore 1 .verified 5).1 =
          .ok { witnessOrder with status := .verified, updated_at := 5 })
    ∧ (allowedTransition witnessOrder.status .verified = false →
        advance_status witnessStore 1 .verified 5 =
          (.error .invalidTransition, witnessStore))
    ∧ (∀ a b : OrderStatus,
        allowedTransition a b = true ↔
          (a, b) ∈ ([(.pending_verification, .verified),
            (.verified, .processing), (.processing, .shipped),
            (.shipped, .delivered),
            (.pending_verification, .canceled), (.verified, .canceled),
            (.processing, .canceled),
            (.pending_verification, .refunded), (.verified, .refunded),
            (.processing, .refunded)] : List (OrderStatus × OrderStatus))) :=
  advance_status_transition_table witnessStore 1 .verified 5 witnessOrder
    (by simp [witnessStore, witnessOrder, findOrder, List.find?])

/-- C6: when `advance_status` moves a stored order out of
`pending_verification`, `verified` or `processing` into `canceled` or
`refunded`, it succeeds and the new stock table is the old one with
every line item's variant incremented back by exactly the snapshotted
quantity (`restoreStock`); hence, the current stock being the pre-order
stock with the order's creation-time decrements applied
(`commitStock`, as `create_order` left it), the pre-order stock levels
are restored exactly. -/
theorem cancel_restores_committed_stock :
    ∀ (st : StoreState) (oid : Nat) (ns : OrderStatus) (now : Int)
      (o : Order) (stock0 : List (String × Int)),
      findOrder st.orders oid = some o →
      (o.status = .pending_verification ∨ o.status = .verified ∨
        o.status = .processing) →
      (ns = .canceled ∨ ns = .refunded) →
      st.stock = commitStock stock0 o.items →
      (∃ o', (advance_status st oid ns now).1 = .ok o')
      ∧ (advance_status st oid ns now).2.stock = restoreStock st.stock o.items
      ∧ (advance_status st oid ns now).2.stock = stock0 := by
  intro st oid ns now o stock0 hfind hstatus hns hstock
  have hallow : allowedTransition o.status ns = true := by
    rcases hstatus with h | h | h <;> rcases hns with rfl | rfl <;>
      simp [allowedTransition, h]
  have hadv : advance_status st oid ns now =
      (.ok { o with status := ns, updated_at := now },
        ⟨restoreStock st.stock o.items,
          (match o.couponUsed with
            | some code => decUsed st.coupons code
            | none => st.coupons),
          setOrder st.orders oid { o with status := ns, updated_at := now },
          st.counter⟩) := by
    simp [advance_status, hfind, hallow, hns]
  refine ⟨⟨{ o with status := ns, updated_at := now }, by rw [hadv]⟩,
    by rw [hadv], ?_⟩
  rw [hadv]
  show restoreStock st.stock o.items = stock0
  rw [hstock, restoreStock_commitStock]

/-- C6 witness: cancelling the `processing` two-unit `SKU1` order whose
creation took the stock from 5 down to 3 restores the stock to 5. -/
theorem cancel_restores_committed_stock_witness :
    (∃ o', (advance_status processingStore 1 .canceled 9).1 = .ok o')
    ∧ (advance_status processingStore 1 .canceled 9).2.stock =
        restoreStock processingStore.stock processingOrder.items
    ∧ (advance_status processingStore 1 .canceled 9).2.stock = [("SKU1", 5)] :=
  cancel_restores_committed_stock processingStore 1 .canceled 9
    processingOrder [("SKU1", 5)]
    (by simp [processingStore, processingOrder, findOrder, List.find?])
    (Or.inr (Or.inr rfl))
    (Or.inl rfl)
    (by decide)
